import Mathlib

/-!
Shallow embedding of the asynchronous event-delivery subsystem of the
sh-task repository: the RabbitMQ-backed queue package (`Message`,
`RabbitMQQueue.PublishMessage`, `PublishEvent`, `ConsumeMessage`,
`StartConsumer`, `ProcessEvent`, `GetQueueLength`, `GetQueueStats`,
`Close`) and the standalone worker process (`cmd` worker `main`).

Modelling conventions:
  - JSON documents are the inductive `JVal`; Go `interface\x7b\x7d` values that can
    sit in a `map[string]interface\x7b\x7d` are `GoVal` (a JSON tree, a
    `*models.Event` pointer as stored by `PublishEvent`, or a value that
    `json.Marshal` rejects, such as a channel).
  - Go maps are association lists with Go-map insertion (assignment replaces
    the binding of an existing key); `json.Unmarshal` into a map keeps the
    last occurrence of a duplicated key, which `aNormalize` reproduces.
    Key ordering is kept as written (a Go map is unordered; `json.Marshal`
    sorts keys, an ordering this model does not depend on).
  - `time.Time` values are abstracted to integers.
  - The broker holds, per queue name, the list of pending message bodies in
    FIFO order; a body is either a JSON document or bytes that fail to parse.
  - Fallible broker calls (dial, declare, publish) take a Boolean oracle
    saying whether the underlying AMQP operation succeeds.
-/

namespace ShTask

/-- A JSON value. -/
inductive JVal where
  | null
  | bool (b : Bool)
  | num (n : Int)
  | str (s : String)
  | arr (xs : List JVal)
  | obj (fields : List (String × JVal))

/-- models.Event (internal/models/event.go): a security event row.  The
JSONB `EventData` is an arbitrary JSON object, timestamps are abstracted
to integers. -/
structure Event where
  ID : String
  EventID : String
  EventType : String
  Severity : String
  Source : String
  Description : String
  EventData : List (String × JVal)
  CreatedAt : Int
  UpdatedAt : Int

/-- The JSON document `json.Marshal` produces for a `models.Event`,
following the struct's json tags. -/
def eventJson (e : Event) : JVal :=
  JVal.obj [("id", JVal.str e.ID), ("event_id", JVal.str e.EventID),
    ("event_type", JVal.str e.EventType), ("severity", JVal.str e.Severity),
    ("source", JVal.str e.Source), ("description", JVal.str e.Description),
    ("event_data", JVal.obj e.EventData), ("created_at", JVal.num e.CreatedAt),
    ("updated_at", JVal.num e.UpdatedAt)]

/-- A Go `interface\x7b\x7d` value as stored in a `Message.Data` map. -/
inductive GoVal where
  | json (j : JVal)
  | eventPtr (e : Event)
  | unserializable

/-- queue.Message (the unit of transport), field names as in the json tags
of the Go struct `Message \x7b ID, Type, Data, Timestamp, Retries \x7d`. -/
structure Message where
  id : String
  type : String
  data : List (String × GoVal)
  timestamp : Int
  retries : Int

/-- Go-map assignment on an association list: replace the binding of an
existing key, otherwise append. -/
def alistInsert {β : Type} : List (String × β) → String → β → List (String × β)
  | [], k, v => [(k, v)]
  | (k', v') :: rest, k, v =>
      if k' = k then (k, v) :: rest else (k', v') :: alistInsert rest k v

/-- Lookup in an association list (Go-map read). -/
def alistLookup {β : Type} : List (String × β) → String → Option β
  | [], _ => none
  | (k', v') :: rest, k => if k' = k then some v' else alistLookup rest k

/-- Build a Go map from JSON object fields processed in order: for a
duplicated key the last occurrence wins, as in `encoding/json`. -/
def aNormalize {β : Type} (fs : List (String × β)) : List (String × β) :=
  fs.foldl (fun m kv => alistInsert m kv.1 kv.2) []

/-- Wrap decoded JSON values as `interface\x7b\x7d` values of a Go map. -/
def wrapData (dj : List (String × JVal)) : List (String × GoVal) :=
  dj.map (fun kv => (kv.1, GoVal.json kv.2))

/-- Marshal (`json.Marshal`) of one `interface\x7b\x7d` value; fails on values the encoder
rejects. -/
def marshalGoVal : GoVal → Option JVal
  | GoVal.json j => some j
  | GoVal.eventPtr e => some (eventJson e)
  | GoVal.unserializable => none

/-- Marshal (`json.Marshal`) of a `map[string]interface\x7b\x7d`. -/
def marshalData : List (String × GoVal) → Option (List (String × JVal))
  | [] => some []
  | (k, v) :: rest =>
      match marshalGoVal v, marshalData rest with
      | some j, some rest' => some ((k, j) :: rest')
      | _, _ => none

/-- Marshal (`json.Marshal`) of a `queue.Message`, fields in struct order with their
json tags. -/
def marshalMessage (m : Message) : Option JVal :=
  match marshalData m.data with
  | none => none
  | some dj => some (JVal.obj [("id", JVal.str m.id), ("type", JVal.str m.type),
      ("data", JVal.obj dj), ("timestamp", JVal.num m.timestamp),
      ("retries", JVal.num m.retries)])

/-- Decode a JSON field into a Go `string` field: absent or `null` leaves
the zero value, a non-string document is a type error. -/
def decodeStringField : Option JVal → Option String
  | none => some ""
  | some JVal.null => some ""
  | some (JVal.str s) => some s
  | some _ => none

/-- Decode a JSON field into a Go `int` field. -/
def decodeIntField : Option JVal → Option Int
  | none => some 0
  | some JVal.null => some 0
  | some (JVal.num n) => some n
  | some _ => none

/-- Decode a JSON field into a Go `map[string]interface\x7b\x7d` field. -/
def decodeDataField : Option JVal → Option (List (String × GoVal))
  | none => some []
  | some JVal.null => some []
  | some (JVal.obj fs) => some (wrapData (aNormalize fs))
  | some _ => none

/-- Unmarshal (`json.Unmarshal`) of a JSON document into a `queue.Message`. -/
def unmarshalMessage (j : JVal) : Option Message :=
  match j with
  | JVal.obj fs =>
      let fm := aNormalize fs
      match decodeStringField (alistLookup fm "id"),
            decodeStringField (alistLookup fm "type"),
            decodeDataField (alistLookup fm "data"),
            decodeIntField (alistLookup fm "timestamp"),
            decodeIntField (alistLookup fm "retries") with
      | some i, some t, some d, some ts, some r => some ⟨i, t, d, ts, r⟩
      | _, _, _, _, _ => none
  | _ => none

/-- The bytes of one AMQP delivery: either a JSON document or bytes
`json.Unmarshal` rejects. -/
inductive Body where
  | json (j : JVal)
  | garbage

/-- Unmarshal of a delivery body: `json.Unmarshal(msg.Body, &message)`. -/
def unmarshalBody : Body → Option Message
  | Body.json j => unmarshalMessage j
  | Body.garbage => none

/-- The broker: the set of declared durable queues and, per queue name, the
pending message bodies in FIFO order (empty for an undeclared queue). -/
structure BrokerState where
  declared : List String
  content : String → List Body

/-- A broker with no queues. -/
def emptyBroker : BrokerState := { declared := [], content := fun _ => [] }

/-- The pending bodies of a queue. -/
def bodiesOf (st : BrokerState) (q : String) : List Body := st.content q

/-- QueueDeclare (`channel.QueueDeclare(name, durable, ...)`): create the queue if absent,
a no-op on an existing queue (idempotent). -/
def declareQueue (st : BrokerState) (q : String) : BrokerState :=
  if q ∈ st.declared then st else { st with declared := q :: st.declared }

/-- Replace the pending bodies of one queue. -/
def setQ (st : BrokerState) (q : String) (l : List Body) : BrokerState :=
  { st with content := fun q' => if q' = q then l else st.content q' }

/-- Publish (`channel.Publish("", routingKey, ...)`) on the default exchange: the body
is appended to the queue named by the routing key; with mandatory=false an
unroutable message (no such queue) is dropped silently. -/
def basicPublish (st : BrokerState) (q : String) (b : Body) : BrokerState :=
  if q ∈ st.declared then setQ st q (st.content q ++ [b]) else st

/-- RabbitMQQueue.PublishMessage: declare the queue, `json.Marshal` the
message, publish the bytes persistently.  `declOk` and `pubOk` say whether
the two AMQP calls succeed; the returned `Option String` is the Go error. -/
def PublishMessage (declOk pubOk : Bool) (st : BrokerState) (m : Message)
    (queueName : String) : BrokerState × Option String :=
  if declOk = false then (st, some "failed to declare queue")
  else
    let st1 := declareQueue st queueName
    match marshalMessage m with
    | none => (st1, some "failed to marshal message")
    | some j =>
        if pubOk then (basicPublish st1 queueName (Body.json j), none)
        else (st1, some "failed to publish message")

/-- The `queue.Message` RabbitMQQueue.PublishEvent builds from an event:
ID from the event, Type "security_event", Data holding the `*models.Event`
under key "event", current time, Retries 0. -/
def eventMessage (now : Int) (event : Event) : Message :=
  { id := event.EventID, type := "security_event",
    data := [("event", GoVal.eventPtr event)], timestamp := now, retries := 0 }

/-- RabbitMQQueue.PublishEvent: wrap the event and publish it. -/
def PublishEvent (declOk pubOk : Bool) (now : Int) (st : BrokerState)
    (event : Event) (queueName : String) : BrokerState × Option String :=
  PublishMessage declOk pubOk st (eventMessage now event) queueName

/-- The `message.Data["event"].(map[string]interface\x7b\x7d)` type assertion in
RabbitMQQueue.ProcessEvent: succeeds only when the stored value is a
decoded JSON object. -/
def eventDataOf (m : Message) : Option (List (String × JVal)) :=
  match alistLookup m.data "event" with
  | some (GoVal.json (JVal.obj fs)) => some fs
  | _ => none

/-- The `eventData["event_type"].(string)` assertion with discarded ok:
a missing or non-string value leaves the zero value "". -/
def eventTypeOf (fs : List (String × JVal)) : String :=
  match alistLookup fs "event_type" with
  | some (JVal.str s) => s
  | _ => ""

/-- The processing branch ProcessEvent selects for a message. -/
inductive HandlerChoice where
  | login
  | dataAccess
  | fileAccess
  | generic
  | invalidData
  deriving DecidableEq

/-- The event types with a specific switch case in ProcessEvent. -/
def knownEventTypes : List String := ["login", "data_access", "file_access"]

/-- Which branch of RabbitMQQueue.ProcessEvent runs: the `switch eventType`
dispatch, or the invalid-event-data early error. -/
def handlerChoice (m : Message) : HandlerChoice :=
  match eventDataOf m with
  | none => HandlerChoice.invalidData
  | some fs =>
      match eventTypeOf fs with
      | "login" => HandlerChoice.login
      | "data_access" => HandlerChoice.dataAccess
      | "file_access" => HandlerChoice.fileAccess
      | _ => HandlerChoice.generic

/-- RabbitMQQueue.ProcessEvent: errors when `Data["event"]` is not a JSON
object; every switch branch (including default) only sleeps and logs, then
returns nil. -/
def ProcessEvent (m : Message) : Except String Unit :=
  match eventDataOf m with
  | none => Except.error "invalid event data in message"
  | some _ => Except.ok ()

/-- Whether ProcessEvent succeeds on a message. -/
def processOk (m : Message) : Bool := (eventDataOf m).isSome

/-- One observable outcome of a consumer-loop iteration (the log lines of
StartConsumer): a successful processing, a handler failure with the
incremented retry count, or a malformed body that was nack-requeued. -/
inductive TraceEv where
  | processed (id : String)
  | failed (id : String) (retries : Int)
  | malformed

/-- One iteration of the receive loop in RabbitMQQueue.StartConsumer for
the consumer bound to `queueName`, instrumented with the emitted trace
event.  `process` is the processing handler (`rq.ProcessEvent` in the
source; the spec treats it as the pluggable handler).  The queue
declaration StartConsumer performs at setup is replayed here; QueueDeclare
is idempotent, so this is equivalent for any number of iterations.
`declOk`/`pubOk` are the oracles for the inner PublishMessage.

The loop body: take the next delivery; if `json.Unmarshal` fails,
`Nack(requeue=true)` leaves it on the queue; if the handler succeeds,
`Ack`; if it fails, increment Retries, publish the updated message to
`queueName + "_retry"` when `Retries < 3` and to `queueName + "_dead"`
otherwise (a publish error is only logged), then `Ack` the original. -/
def consumerStepT (process : Message → Bool) (declOk pubOk : Bool)
    (st : BrokerState) (queueName : String) : BrokerState × List TraceEv :=
  let st0 := declareQueue st queueName
  match bodiesOf st0 queueName with
  | [] => (st0, [])
  | b :: rest =>
      match unmarshalBody b with
      | none => (st0, [TraceEv.malformed])
      | some message =>
          if process message then
            (setQ st0 queueName rest, [TraceEv.processed message.id])
          else
            let message := { message with retries := message.retries + 1 }
            if message.retries < 3 then
              let st1 := (PublishMessage declOk pubOk st0 message
                (queueName ++ "_retry")).1
              (setQ st1 queueName rest, [TraceEv.failed message.id message.retries])
            else
              let st1 := (PublishMessage declOk pubOk st0 message
                (queueName ++ "_dead")).1
              (setQ st1 queueName rest, [TraceEv.failed message.id message.retries])

/-- The state transformation of one StartConsumer loop iteration. -/
def consumerStep (process : Message → Bool) (declOk pubOk : Bool)
    (st : BrokerState) (queueName : String) : BrokerState :=
  (consumerStepT process declOk pubOk st queueName).1

/-- RabbitMQQueue.ConsumeMessage: declare, set QoS, consume one delivery
with a timeout.  `setupOk` covers the declare/QoS/consume setup calls; an
empty queue is the timeout branch; a body that fails to unmarshal is
nack-requeued and reported as an error; otherwise the delivery is acked
and the message returned. -/
def ConsumeMessage (setupOk : Bool) (st : BrokerState) (queueName : String) :
    BrokerState × Except String Message :=
  if setupOk = false then (st, Except.error "failed to declare queue")
  else
    let st0 := declareQueue st queueName
    match bodiesOf st0 queueName with
    | [] => (st0, Except.error "timeout waiting for message")
    | b :: rest =>
        match unmarshalBody b with
        | none => (st0, Except.error "failed to unmarshal message")
        | some message => (setQ st0 queueName rest, Except.ok message)

/-- RabbitMQQueue.GetQueueLength: QueueDeclare the name (idempotent;
creates the queue if absent) and report the declared queue's pending
message count.  `declOk` says whether the declare call succeeds for a
given name. -/
def GetQueueLength (declOk : String → Bool) (st : BrokerState)
    (queueName : String) : BrokerState × Except String Int :=
  if declOk queueName then
    (declareQueue st queueName, Except.ok ((bodiesOf st queueName).length : Int))
  else (st, Except.error "failed to declare queue")

/-- One entry of the stats map: either a length/backend-kind record or the
inline per-queue error. -/
inductive StatEntry where
  | stats (length : Int) (backend : String)
  | failure (msg : String)
  deriving DecidableEq

/-- The loop body of RabbitMQQueue.GetQueueStats over the requested names,
threading the broker state and the Go map of entries. -/
def getQueueStatsAux (declOk : String → Bool) :
    List String → BrokerState → List (String × StatEntry) →
    BrokerState × List (String × StatEntry)
  | [], st, acc => (st, acc)
  | q :: rest, st, acc =>
      match GetQueueLength declOk st q with
      | (st', Except.error e) =>
          getQueueStatsAux declOk rest st' (alistInsert acc q (StatEntry.failure e))
      | (st', Except.ok len) =>
          getQueueStatsAux declOk rest st'
            (alistInsert acc q (StatEntry.stats len "rabbitmq"))

/-- RabbitMQQueue.GetQueueStats: one entry per requested queue name; a
per-queue GetQueueLength failure is stored inline as that queue's entry. -/
def GetQueueStats (declOk : String → Bool) (st : BrokerState)
    (queueNames : List String) : BrokerState × List (String × StatEntry) :=
  getQueueStatsAux declOk queueNames st []

/-- One consumer-loop iteration of some worker: the queue it is bound to,
the handler outcome it observes, and the oracles for the inner publish. -/
structure Act where
  queue : String
  process : Message → Bool
  declOk : Bool
  pubOk : Bool

/-- Run a sequence of consumer-loop iterations, collecting the trace. -/
def runConsumers : List Act → BrokerState → BrokerState × List TraceEv
  | [], st => (st, [])
  | a :: rest, st =>
      let p := consumerStepT a.process a.declOk a.pubOk st a.queue
      let p' := runConsumers rest p.1
      (p'.1, p.2 ++ p'.2)

/-- How many handler failures a trace records for one message id. -/
def failureCount (evs : List TraceEv) (id : String) : Nat :=
  (evs.filter (fun e =>
    match e with
    | TraceEv.failed i _ => i = id
    | _ => false)).length

/-!
The standalone worker process (cmd worker `main` together with
RabbitMQQueue.Close), modelled in its steady state: the pool of
`StartConsumer` goroutines is up and consuming.  `main` parses flags,
starts the workers, blocks on `<-sigChan`, then calls `wg.Wait()`;
`defer queueManager.Close()` — the only caller of `rq.cancel()` — runs
after `wg.Wait()` returns; a worker returns from `StartConsumer` only on
`<-rq.ctx.Done()`.
-/

/-- Where the main goroutine of the worker process is. -/
inductive MainPhase where
  | waitingSignal
  | waitingWorkers
  | closing
  | exited
  deriving DecidableEq

/-- The worker process: main's phase, whether `rq.ctx` has been cancelled
(`rq.cancel()` is called only by RabbitMQQueue.Close), and how many
workers are still inside their StartConsumer loop. -/
structure WorkerPoolState where
  phase : MainPhase
  cancelled : Bool
  running : Nat
  deriving DecidableEq

/-- The worker process with `n` consuming workers, before any signal. -/
def initialPool (n : Nat) : WorkerPoolState :=
  { phase := MainPhase.waitingSignal, cancelled := false, running := n }

/-- Atomic transitions of the worker process:
`interrupt` — SIGINT/SIGTERM arrives, `<-sigChan` unblocks and main moves
to `wg.Wait()`; `workerStops` — a worker observes `<-rq.ctx.Done()` and
returns (only possible once the context is cancelled); `waitGroupDone` —
`wg.Wait()` returns once every worker has called `wg.Done()`;
`closeRuns` — the deferred Close() runs, calling `rq.cancel()` and closing
the channel and connection, and the process exits. -/
inductive PoolStep : WorkerPoolState → WorkerPoolState → Prop where
  | interrupt (c : Bool) (r : Nat) :
      PoolStep ⟨MainPhase.waitingSignal, c, r⟩ ⟨MainPhase.waitingWorkers, c, r⟩
  | workerStops (p : MainPhase) (r : Nat) :
      PoolStep ⟨p, true, r + 1⟩ ⟨p, true, r⟩
  | waitGroupDone (c : Bool) :
      PoolStep ⟨MainPhase.waitingWorkers, c, 0⟩ ⟨MainPhase.closing, c, 0⟩
  | closeRuns (c : Bool) (r : Nat) :
      PoolStep ⟨MainPhase.closing, c, r⟩ ⟨MainPhase.exited, true, r⟩

/-!
Concrete inputs for counterexamples and witnesses.
-/

/-- A sample security event. -/
def sampleEvent : Event :=
  { ID := "7", EventID := "event-1", EventType := "login", Severity := "high",
    Source := "web-application", Description := "failed logins",
    EventData := [("ip", JVal.str "10.0.0.1")], CreatedAt := 0, UpdatedAt := 0 }

/-- A wire-shaped message whose event data carries event_type "login". -/
def msgLoginA : Message :=
  { id := "m1", type := "security_event",
    data := [("event", GoVal.json (JVal.obj [("event_type", JVal.str "login")]))],
    timestamp := 0, retries := 0 }

/-- Same Message.Type as `msgLoginA`, but event_type "data_access". -/
def msgDataB : Message :=
  { id := "m2", type := "security_event",
    data := [("event", GoVal.json (JVal.obj [("event_type", JVal.str "data_access")]))],
    timestamp := 0, retries := 0 }

/-- A handler that fails on every delivery. -/
def alwaysFail : Message → Bool := fun _ => false

/-- A message published with retryCount 0 for the always-failing scenario. -/
def cexMessage : Message :=
  { id := "evt-1", type := "security_event",
    data := [("event", GoVal.json (JVal.obj [("event_type", JVal.str "login")]))],
    timestamp := 0, retries := 0 }

/-- The broker after publishing `cexMessage` onto queue Q. -/
def cexState0 : BrokerState := (PublishMessage true true emptyBroker cexMessage "Q").1

/-- After the first failed delivery, consumed from Q. -/
def cexState1 : BrokerState := consumerStep alwaysFail true true cexState0 "Q"

/-- After the second failed delivery, consumed from Q_retry. -/
def cexState2 : BrokerState := consumerStep alwaysFail true true cexState1 "Q_retry"

/-- After the third failed delivery, consumed from Q_retry_retry. -/
def cexState3 : BrokerState := consumerStep alwaysFail true true cexState2 "Q_retry_retry"

/-- A message whose Data map holds a value `json.Marshal` rejects (e.g. a
channel), so its serialization fails. -/
def msgChan : Message :=
  { id := "u1", type := "security_event", data := [("ch", GoVal.unserializable)],
    timestamp := 0, retries := 0 }

/-- A broker whose only queue G holds a single undeserializable body. -/
def garbState : BrokerState :=
  { declared := ["G"], content := fun q => if q = "G" then [Body.garbage] else [] }

/-- General always-failing scenario, first hop: publish `m` on `qn` from an
empty broker, then one consumer-loop iteration on `qn` (all broker calls
succeed). -/
def failRun1 (process : Message → Bool) (m : Message) (qn : String) : BrokerState :=
  consumerStep process true true (PublishMessage true true emptyBroker m qn).1 qn

/-- Second hop: a consumer-loop iteration on the retry queue. -/
def failRun2 (process : Message → Bool) (m : Message) (qn : String) : BrokerState :=
  consumerStep process true true (failRun1 process m qn) (qn ++ "_retry")

/-- Third hop: a consumer-loop iteration on the second-level retry queue. -/
def failRun3 (process : Message → Bool) (m : Message) (qn : String) : BrokerState :=
  consumerStep process true true (failRun2 process m qn) (qn ++ "_retry_retry")

/-- The broker carries no pending bodies at all. -/
def noMessages (st : BrokerState) : Prop := ∀ q, st.content q = []

/-- Exactly one pending body exists on the whole broker: it sits on queue
`q` and unmarshals to `m`. -/
def soleMessage (st : BrokerState) (m : Message) (q : String) : Prop :=
  (∃ b, st.content q = [b] ∧ unmarshalBody b = some m) ∧
    ∀ q', q' ≠ q → st.content q' = []

/-- Invariant of the single-logical-message system: either no copy is left,
or exactly one copy exists, carries the original id, and its Retries field
equals `n`, the number of handler failures recorded so far. -/
def MsgInv (id : String) (n : Nat) (st : BrokerState) : Prop :=
  noMessages st ∨
    ∃ q m, soleMessage st m q ∧ m.id = id ∧ m.retries = (n : Int)

/-! Helper lemmas: Go maps (association lists) and JSON round trips. -/

theorem alistInsert_of_not_mem {β : Type} (m : List (String × β)) (k : String) (v : β)
    (h : k ∉ m.map Prod.fst) : alistInsert m k v = m ++ [(k, v)] := by
  induction m with
  | nil => rfl
  | cons kv rest ih =>
      obtain ⟨k', v'⟩ := kv
      simp only [List.map_cons, List.mem_cons, not_or] at h
      obtain ⟨h1, h2⟩ := h
      have hkk : ¬ k' = k := fun hh => h1 hh.symm
      simp only [alistInsert, if_neg hkk, List.cons_append, ih h2]

theorem map_fst_alistInsert {β : Type} (m : List (String × β)) (k : String) (v : β) :
    (alistInsert m k v).map Prod.fst =
      if k ∈ m.map Prod.fst then m.map Prod.fst else m.map Prod.fst ++ [k] := by
  induction m with
  | nil => simp [alistInsert]
  | cons kv rest ih =>
      obtain ⟨k', v'⟩ := kv
      by_cases hk : k' = k
      · subst hk
        simp [alistInsert]
      · have hk' : ¬ k = k' := fun hh => hk hh.symm
        by_cases hm : k ∈ rest.map Prod.fst <;>
          simp [alistInsert, hk, hk', ih, hm]

theorem nodup_keys_alistInsert {β : Type} (m : List (String × β)) (k : String) (v : β)
    (h : (m.map Prod.fst).Nodup) : ((alistInsert m k v).map Prod.fst).Nodup := by
  rw [map_fst_alistInsert]
  split
  · exact h
  · next hk =>
      exact h.append (List.nodup_singleton k)
        (fun a ha hb => hk (by simpa [List.mem_singleton.mp hb] using ha))

theorem aNormalize_aux_eq {β : Type} (fs : List (String × β)) :
    ∀ acc : List (String × β), ((acc ++ fs).map Prod.fst).Nodup →
      fs.foldl (fun m kv => alistInsert m kv.1 kv.2) acc = acc ++ fs := by
  induction fs with
  | nil => intro acc _; simp
  | cons kv rest ih =>
      intro acc h
      obtain ⟨k, v⟩ := kv
      have hk : k ∉ acc.map Prod.fst := by
        have hd := List.disjoint_of_nodup_append (by simpa [List.map_append] using h)
        exact fun hmem => hd hmem (List.mem_cons_self _ _)
      have h' : (((acc ++ [(k, v)]) ++ rest).map Prod.fst).Nodup := by
        simpa [List.append_assoc] using h
      calc ((k, v) :: rest).foldl (fun m kv => alistInsert m kv.1 kv.2) acc
          = rest.foldl (fun m kv => alistInsert m kv.1 kv.2) (alistInsert acc k v) := by
            simp
        _ = rest.foldl (fun m kv => alistInsert m kv.1 kv.2) (acc ++ [(k, v)]) := by
            rw [alistInsert_of_not_mem acc k v hk]
        _ = (acc ++ [(k, v)]) ++ rest := ih (acc ++ [(k, v)]) h'
        _ = acc ++ (k, v) :: rest := by simp

theorem aNormalize_eq_self {β : Type} (fs : List (String × β))
    (h : (fs.map Prod.fst).Nodup) : aNormalize fs = fs := by
  simpa [aNormalize] using aNormalize_aux_eq fs [] (by simpa using h)

theorem aNormalize_aux_nodup {β : Type} (fs : List (String × β)) :
    ∀ acc : List (String × β), (acc.map Prod.fst).Nodup →
      ((fs.foldl (fun m kv => alistInsert m kv.1 kv.2) acc).map Prod.fst).Nodup := by
  induction fs with
  | nil => intro acc h; simpa using h
  | cons kv rest ih =>
      intro acc h
      simpa using ih (alistInsert acc kv.1 kv.2) (nodup_keys_alistInsert acc kv.1 kv.2 h)

theorem aNormalize_nodup {β : Type} (fs : List (String × β)) :
    ((aNormalize fs).map Prod.fst).Nodup :=
  aNormalize_aux_nodup fs [] (by simp)

theorem marshalData_wrapData (dj : List (String × JVal)) :
    marshalData (wrapData dj) = some dj := by
  induction dj with
  | nil => rfl
  | cons kv rest ih => simp [wrapData, marshalData, marshalGoVal, ih] at *

theorem marshalMessage_wrapData (m : Message) (dj : List (String × JVal))
    (hd : m.data = wrapData dj) :
    marshalMessage m = some (JVal.obj [("id", JVal.str m.id), ("type", JVal.str m.type),
      ("data", JVal.obj dj), ("timestamp", JVal.num m.timestamp),
      ("retries", JVal.num m.retries)]) := by
  simp [marshalMessage, hd, marshalData_wrapData]

theorem unmarshal_marshal_wire (m : Message) (dj : List (String × JVal))
    (hd : m.data = wrapData dj) (hnd : (dj.map Prod.fst).Nodup) :
    unmarshalMessage (JVal.obj [("id", JVal.str m.id), ("type", JVal.str m.type),
      ("data", JVal.obj dj), ("timestamp", JVal.num m.timestamp),
      ("retries", JVal.num m.retries)]) = some m := by
  have hfold : dj.foldl (fun m kv => alistInsert m kv.1 kv.2) [] = dj :=
    aNormalize_eq_self dj hnd
  simp [unmarshalMessage, aNormalize, alistInsert, alistLookup, decodeStringField,
    decodeIntField, decodeDataField, hfold, ← hd]

theorem decodeDataField_shape (o : Option JVal) (d : List (String × GoVal))
    (h : decodeDataField o = some d) :
    ∃ dj, (dj.map Prod.fst).Nodup ∧ d = wrapData dj := by
  match o with
  | none =>
      refine ⟨[], by simp, ?_⟩
      simp [decodeDataField] at h
      simp [← h, wrapData]
  | some JVal.null =>
      refine ⟨[], by simp, ?_⟩
      simp [decodeDataField] at h
      simp [← h, wrapData]
  | some (JVal.obj fs) =>
      refine ⟨aNormalize fs, aNormalize_nodup fs, ?_⟩
      simp [decodeDataField] at h
      exact h.symm
  | some (JVal.bool b) => simp [decodeDataField] at h
  | some (JVal.num n) => simp [decodeDataField] at h
  | some (JVal.str s) => simp [decodeDataField] at h
  | some (JVal.arr xs) => simp [decodeDataField] at h

theorem unmarshalMessage_shape (j : JVal) (m : Message)
    (h : unmarshalMessage j = some m) :
    ∃ dj, (dj.map Prod.fst).Nodup ∧ m.data = wrapData dj := by
  cases j <;> simp only [unmarshalMessage] at h <;> try exact absurd h (by simp)
  next fs =>
    split at h
    · next i t d ts r h1 h2 h3 h4 h5 =>
        obtain ⟨dj, hnd, hdd⟩ := decodeDataField_shape _ _ h3
        injection h with h
        exact ⟨dj, hnd, by rw [← h]; exact hdd⟩
    · exact absurd h (by simp)

theorem unmarshalBody_shape (b : Body) (m : Message)
    (h : unmarshalBody b = some m) :
    ∃ dj, (dj.map Prod.fst).Nodup ∧ m.data = wrapData dj := by
  cases b with
  | json j => exact unmarshalMessage_shape j m h
  | garbage => exact absurd h (by simp [unmarshalBody])

theorem remarshal_retries (b : Body) (m : Message)
    (h : unmarshalBody b = some m) (r : Int) :
    ∃ j, marshalMessage { m with retries := r } = some j ∧
      unmarshalMessage j = some { m with retries := r } := by
  obtain ⟨dj, hnd, hd⟩ := unmarshalBody_shape b m h
  have hd' : ({ m with retries := r } : Message).data = wrapData dj := hd
  exact ⟨_, marshalMessage_wrapData _ dj hd',
    unmarshal_marshal_wire { m with retries := r } dj hd' hnd⟩

/-! Helper lemmas: broker state operations. -/

theorem content_declareQueue (st : BrokerState) (q : String) :
    (declareQueue st q).content = st.content := by
  unfold declareQueue
  split <;> rfl

theorem bodiesOf_declareQueue (st : BrokerState) (q q' : String) :
    bodiesOf (declareQueue st q) q' = bodiesOf st q' := by
  simp [bodiesOf, content_declareQueue]

theorem mem_declared_declareQueue (st : BrokerState) (q : String) :
    q ∈ (declareQueue st q).declared := by
  unfold declareQueue
  split
  · assumption
  · exact List.mem_cons_self _ _

theorem bodiesOf_setQ (st : BrokerState) (q : String) (l : List Body) (q' : String) :
    bodiesOf (setQ st q l) q' = if q' = q then l else bodiesOf st q' := rfl

theorem publish_ok_bodies (st : BrokerState) (m : Message) (q : String) (j : JVal)
    (hm : marshalMessage m = some j) (q' : String) :
    bodiesOf (PublishMessage true true st m q).1 q' =
      if q' = q then bodiesOf st q ++ [Body.json j] else bodiesOf st q' := by
  simp only [PublishMessage, hm, Bool.true_eq_false, if_false, basicPublish,
    if_pos (mem_declared_declareQueue st q), if_true]
  rw [bodiesOf_setQ]
  simp [bodiesOf, content_declareQueue]

theorem publish_failed_content (declOk pubOk : Bool) (st : BrokerState)
    (m : Message) (q : String)
    (h : declOk = false ∨ pubOk = false ∨ marshalMessage m = none) :
    ((PublishMessage declOk pubOk st m q).1).content = st.content := by
  cases declOk with
  | false => simp [PublishMessage]
  | true =>
      cases hm : marshalMessage m with
      | none => simp [PublishMessage, hm, content_declareQueue]
      | some j =>
          rcases h with h | h | h
          · exact absurd h (by simp)
          · subst h
            simp [PublishMessage, hm, content_declareQueue]
          · rw [hm] at h
            exact absurd h (by simp)

/-! Helper lemmas: one iteration of the StartConsumer loop, by branch. -/

theorem consumerStepT_empty (process : Message → Bool) (declOk pubOk : Bool)
    (st : BrokerState) (qn : String) (h : bodiesOf st qn = []) :
    consumerStepT process declOk pubOk st qn = (declareQueue st qn, []) := by
  simp [consumerStepT, bodiesOf_declareQueue, h]

theorem consumerStepT_malformed (process : Message → Bool) (declOk pubOk : Bool)
    (st : BrokerState) (qn : String) (b : Body) (rest : List Body)
    (hq : bodiesOf st qn = b :: rest) (hb : unmarshalBody b = none) :
    consumerStepT process declOk pubOk st qn =
      (declareQueue st qn, [TraceEv.malformed]) := by
  simp [consumerStepT, bodiesOf_declareQueue, hq, hb]

theorem consumerStepT_success (process : Message → Bool) (declOk pubOk : Bool)
    (st : BrokerState) (qn : String) (b : Body) (rest : List Body) (m : Message)
    (hq : bodiesOf st qn = b :: rest) (hb : unmarshalBody b = some m)
    (hp : process m = true) :
    consumerStepT process declOk pubOk st qn =
      (setQ (declareQueue st qn) qn rest, [TraceEv.processed m.id]) := by
  simp [consumerStepT, bodiesOf_declareQueue, hq, hb, hp]

theorem consumerStepT_fail_retry (process : Message → Bool) (declOk pubOk : Bool)
    (st : BrokerState) (qn : String) (b : Body) (rest : List Body) (m : Message)
    (hq : bodiesOf st qn = b :: rest) (hb : unmarshalBody b = some m)
    (hp : process m = false) (hr : m.retries + 1 < 3) :
    consumerStepT process declOk pubOk st qn =
      (setQ (PublishMessage declOk pubOk (declareQueue st qn)
          { m with retries := m.retries + 1 } (qn ++ "_retry")).1 qn rest,
        [TraceEv.failed m.id (m.retries + 1)]) := by
  simp [consumerStepT, bodiesOf_declareQueue, hq, hb, hp, hr]

theorem consumerStepT_fail_dead (process : Message → Bool) (declOk pubOk : Bool)
    (st : BrokerState) (qn : String) (b : Body) (rest : List Body) (m : Message)
    (hq : bodiesOf st qn = b :: rest) (hb : unmarshalBody b = some m)
    (hp : process m = false) (hr : ¬ m.retries + 1 < 3) :
    consumerStepT process declOk pubOk st qn =
      (setQ (PublishMessage declOk pubOk (declareQueue st qn)
          { m with retries := m.retries + 1 } (qn ++ "_dead")).1 qn rest,
        [TraceEv.failed m.id (m.retries + 1)]) := by
  simp [consumerStepT, bodiesOf_declareQueue, hq, hb, hp, hr]

theorem consumerStep_fail_retry_bodies (process : Message → Bool)
    (st : BrokerState) (qn : String) (b : Body) (rest : List Body) (m : Message)
    (j : JVal) (hq : bodiesOf st qn = b :: rest) (hb : unmarshalBody b = some m)
    (hp : process m = false) (hr : m.retries + 1 < 3)
    (hm : marshalMessage { m with retries := m.retries + 1 } = some j)
    (q' : String) :
    bodiesOf (consumerStep process true true st qn) q' =
      if q' = qn then rest
      else if q' = qn ++ "_retry" then
        bodiesOf st (qn ++ "_retry") ++ [Body.json j]
      else bodiesOf st q' := by
  rw [consumerStep, consumerStepT_fail_retry process true true st qn b rest m hq hb hp hr]
  rw [bodiesOf_setQ]
  by_cases hqq : q' = qn
  · simp [hqq]
  · rw [if_neg hqq, publish_ok_bodies _ _ _ j hm, if_neg hqq]
    by_cases hqr : q' = qn ++ "_retry" <;>
      simp [hqr, bodiesOf_declareQueue]

theorem consumerStep_fail_dead_bodies (process : Message → Bool)
    (st : BrokerState) (qn : String) (b : Body) (rest : List Body) (m : Message)
    (j : JVal) (hq : bodiesOf st qn = b :: rest) (hb : unmarshalBody b = some m)
    (hp : process m = false) (hr : ¬ m.retries + 1 < 3)
    (hm : marshalMessage { m with retries := m.retries + 1 } = some j)
    (q' : String) :
    bodiesOf (consumerStep process true true st qn) q' =
      if q' = qn then rest
      else if q' = qn ++ "_dead" then
        bodiesOf st (qn ++ "_dead") ++ [Body.json j]
      else bodiesOf st q' := by
  rw [consumerStep, consumerStepT_fail_dead process true true st qn b rest m hq hb hp hr]
  rw [bodiesOf_setQ]
  by_cases hqq : q' = qn
  · simp [hqq]
  · rw [if_neg hqq, publish_ok_bodies _ _ _ j hm, if_neg hqq]
    by_cases hqr : q' = qn ++ "_dead" <;>
      simp [hqr, bodiesOf_declareQueue]

/-! Helper lemmas: queue-name arithmetic. -/

theorem append_ne_of_length_ne (s a b : String) (h : a.length ≠ b.length) :
    s ++ a ≠ s ++ b := by
  intro hh
  have hl := congrArg String.length hh
  simp only [String.length_append] at hl
  omega

theorem append_ne_self_of_pos (s t : String) (h : 0 < t.length) : s ++ t ≠ s := by
  intro hh
  have hl := congrArg String.length hh
  simp only [String.length_append] at hl
  omega

/-! C1 -/

/-- C1: on a delivered message whose processing handler fails, the consumer
loop increments the message's retryCount by one; when the incremented count
is below maxRetries = 3 it republishes the updated message (its JSON
serialization) onto the queue named queueName ++ "_retry" and acknowledges
the original delivery, removing it from the consumed queue; otherwise it
publishes the message, unchanged except for the count, onto
queueName ++ "_dead" and acknowledges the original.  No other queue
changes. -/
theorem failure_routes_to_retry_or_dead (process : Message → Bool)
    (st : BrokerState) (qn : String) (b : Body) (rest : List Body) (m : Message)
    (hq : bodiesOf st qn = b :: rest) (hb : unmarshalBody b = some m)
    (hp : process m = false) :
    ∃ j, marshalMessage { m with retries := m.retries + 1 } = some j ∧
      (m.retries + 1 < 3 →
        bodiesOf (consumerStep process true true st qn) qn = rest ∧
        bodiesOf (consumerStep process true true st qn) (qn ++ "_retry") =
          bodiesOf st (qn ++ "_retry") ++ [Body.json j] ∧
        ∀ q', q' ≠ qn → q' ≠ qn ++ "_retry" →
          bodiesOf (consumerStep process true true st qn) q' = bodiesOf st q') ∧
      (¬ m.retries + 1 < 3 →
        bodiesOf (consumerStep process true true st qn) qn = rest ∧
        bodiesOf (consumerStep process true true st qn) (qn ++ "_dead") =
          bodiesOf st (qn ++ "_dead") ++ [Body.json j] ∧
        ∀ q', q' ≠ qn → q' ≠ qn ++ "_dead" →
          bodiesOf (consumerStep process true true st qn) q' = bodiesOf st q') := by
  obtain ⟨j, hj, _⟩ := remarshal_retries b m hb (m.retries + 1)
  refine ⟨j, hj, fun hr => ?_, fun hr => ?_⟩
  · have hbod := consumerStep_fail_retry_bodies process st qn b rest m j hq hb hp hr hj
    refine ⟨by simpa using hbod qn, ?_, ?_⟩
    · have h := hbod (qn ++ "_retry")
      rwa [if_neg (append_ne_self_of_pos qn "_retry" (by decide)), if_pos rfl] at h
    · intro q' h1 h2
      have h := hbod q'
      rwa [if_neg h1, if_neg h2] at h
  · have hbod := consumerStep_fail_dead_bodies process st qn b rest m j hq hb hp hr hj
    refine ⟨by simpa using hbod qn, ?_, ?_⟩
    · have h := hbod (qn ++ "_dead")
      rwa [if_neg (append_ne_self_of_pos qn "_dead" (by decide)), if_pos rfl] at h
    · intro q' h1 h2
      have h := hbod q'
      rwa [if_neg h1, if_neg h2] at h

/-- Witness for C1: the always-failing login message, freshly published on
Q with retryCount 0, moves to Q_retry after its first failed delivery. -/
theorem failure_routes_to_retry_or_dead_witness :
    bodiesOf cexState1 "Q" = [] ∧
    (bodiesOf cexState1 ("Q" ++ "_retry")).length = 1 := by
  obtain ⟨j, hj, hlt, _⟩ := failure_routes_to_retry_or_dead alwaysFail cexState0 "Q"
    (Body.json (JVal.obj [("id", JVal.str "evt-1"), ("type", JVal.str "security_event"),
      ("data", JVal.obj [("event", JVal.obj [("event_type", JVal.str "login")])]),
      ("timestamp", JVal.num 0), ("retries", JVal.num 0)])) [] cexMessage
    (by rfl) (by rfl) (by rfl)
  obtain ⟨h1, h2, _⟩ := hlt (by decide)
  refine ⟨h1, ?_⟩
  show (bodiesOf (consumerStep alwaysFail true true cexState0 "Q") ("Q" ++ "_retry")).length = 1
  rw [h2]
  rfl

/-! C2 -/

theorem step_single_retry (process : Message → Bool) (st : BrokerState)
    (qc : String) (j : JVal) (m : Message) (j' : JVal)
    (hst : ∀ q', bodiesOf st q' = if q' = qc then [Body.json j] else [])
    (hum : unmarshalMessage j = some m) (hp : process m = false)
    (hr : m.retries + 1 < 3)
    (hm' : marshalMessage { m with retries := m.retries + 1 } = some j') :
    ∀ q', bodiesOf (consumerStep process true true st qc) q' =
      if q' = qc ++ "_retry" then [Body.json j'] else [] := by
  intro q'
  have hq : bodiesOf st qc = Body.json j :: [] := by simp [hst]
  rw [consumerStep_fail_retry_bodies process st qc (Body.json j) [] m j' hq hum hp hr hm' q']
  by_cases h1 : q' = qc
  · subst h1
    rw [if_pos rfl, if_neg (Ne.symm (append_ne_self_of_pos q' "_retry" (by decide)))]
  · rw [if_neg h1]
    by_cases h2 : q' = qc ++ "_retry"
    · subst h2
      rw [if_pos rfl, if_pos rfl, hst]
      rw [if_neg (append_ne_self_of_pos qc "_retry" (by decide))]
      rfl
    · rw [if_neg h2, if_neg h2, hst, if_neg h1]

theorem step_single_dead (process : Message → Bool) (st : BrokerState)
    (qc : String) (j : JVal) (m : Message) (j' : JVal)
    (hst : ∀ q', bodiesOf st q' = if q' = qc then [Body.json j] else [])
    (hum : unmarshalMessage j = some m) (hp : process m = false)
    (hr : ¬ m.retries + 1 < 3)
    (hm' : marshalMessage { m with retries := m.retries + 1 } = some j') :
    ∀ q', bodiesOf (consumerStep process true true st qc) q' =
      if q' = qc ++ "_dead" then [Body.json j'] else [] := by
  intro q'
  have hq : bodiesOf st qc = Body.json j :: [] := by simp [hst]
  rw [consumerStep_fail_dead_bodies process st qc (Body.json j) [] m j' hq hum hp hr hm' q']
  by_cases h1 : q' = qc
  · subst h1
    rw [if_pos rfl, if_neg (Ne.symm (append_ne_self_of_pos q' "_dead" (by decide)))]
  · rw [if_neg h1]
    by_cases h2 : q' = qc ++ "_dead"
    · subst h2
      rw [if_pos rfl, if_pos rfl, hst]
      rw [if_neg (append_ne_self_of_pos qc "_dead" (by decide))]
      rfl
    · rw [if_neg h2, if_neg h2, hst, if_neg h1]

/-- Counterexample to C2 as stated: for the always-failing message
published with retryCount 0 on Q (retried copies consumed from the queue
they lie in), after the third failure the dead-letter copy is NOT in
Q_dead — Q_dead is empty — and instead sits, exactly once and with
retryCount 3, in Q_retry_retry_dead, because StartConsumer appends
"_retry"/"_dead" to the name of the queue it consumes. -/
theorem third_failure_misses_primary_dead_queue :
    bodiesOf cexState3 "Q_dead" = [] ∧
    bodiesOf cexState3 "Q_retry_retry_dead" =
      [Body.json (JVal.obj [("id", JVal.str "evt-1"), ("type", JVal.str "security_event"),
        ("data", JVal.obj [("event", JVal.obj [("event_type", JVal.str "login")])]),
        ("timestamp", JVal.num 0), ("retries", JVal.num 3)])] :=
  ⟨rfl, rfl⟩

theorem wire_roundtrip (m : Message) (dj : List (String × JVal))
    (hd : m.data = wrapData dj) (hnd : (dj.map Prod.fst).Nodup) :
    ∃ j, marshalMessage m = some j ∧ unmarshalMessage j = some m :=
  ⟨_, marshalMessage_wrapData m dj hd, unmarshal_marshal_wire m dj hd hnd⟩

/-- C2 (amended): for a message published with retryCount 0 whose handler
fails on every delivery, each retried copy consumed by a consumer bound to
the queue it lies in, the copy present after k consecutive failures has
retryCount = k for k = 0..3; but because StartConsumer derives the retry
and dead-letter queue names from the queue it consumes, the copies travel
qn → qn_retry → qn_retry_retry, and after the third failure the message
sits exactly once, with retryCount 3, in qn_retry_retry_dead, while qn,
qn_retry, qn_retry_retry and also the primary dead-letter queue qn_dead
are all empty — qn_dead never receives it. -/
theorem always_failing_cascade (process : Message → Bool) (m : Message)
    (dj : List (String × JVal)) (qn : String)
    (hd : m.data = wrapData dj) (hnd : (dj.map Prod.fst).Nodup)
    (hr0 : m.retries = 0) (hp : ∀ x, process x = false) :
    (∃ b0, bodiesOf (PublishMessage true true emptyBroker m qn).1 qn = [b0] ∧
      unmarshalBody b0 = some m) ∧
    (∃ b1, bodiesOf (failRun1 process m qn) (qn ++ "_retry") = [b1] ∧
      unmarshalBody b1 = some { m with retries := 1 }) ∧
    (∃ b2, bodiesOf (failRun2 process m qn) (qn ++ "_retry_retry") = [b2] ∧
      unmarshalBody b2 = some { m with retries := 2 }) ∧
    (∃ b3, bodiesOf (failRun3 process m qn) (qn ++ "_retry_retry_dead") = [b3] ∧
      unmarshalBody b3 = some { m with retries := 3 }) ∧
    bodiesOf (failRun3 process m qn) qn = [] ∧
    bodiesOf (failRun3 process m qn) (qn ++ "_retry") = [] ∧
    bodiesOf (failRun3 process m qn) (qn ++ "_retry_retry") = [] ∧
    bodiesOf (failRun3 process m qn) (qn ++ "_dead") = [] := by
  obtain ⟨mi, mt, md, mts, mr⟩ := m
  simp only [Message.retries] at hr0
  simp only [Message.data] at hd
  subst hr0
  subst hd
  obtain ⟨j0, hj0m, hj0u⟩ :=
    wire_roundtrip (Message.mk mi mt (wrapData dj) mts 0) dj rfl hnd
  obtain ⟨j1, hj1m, hj1u⟩ :=
    wire_roundtrip (Message.mk mi mt (wrapData dj) mts 1) dj rfl hnd
  obtain ⟨j2, hj2m, hj2u⟩ :=
    wire_roundtrip (Message.mk mi mt (wrapData dj) mts 2) dj rfl hnd
  obtain ⟨j3, hj3m, hj3u⟩ :=
    wire_roundtrip (Message.mk mi mt (wrapData dj) mts 3) dj rfl hnd
  have h0 : ∀ q', bodiesOf (PublishMessage true true emptyBroker
      (Message.mk mi mt (wrapData dj) mts 0) qn).1 q' =
      if q' = qn then [Body.json j0] else [] := by
    intro q'
    rw [publish_ok_bodies emptyBroker _ qn j0 hj0m q']
    by_cases hqq : q' = qn <;> simp [hqq, bodiesOf, emptyBroker]
  have h1 : ∀ q', bodiesOf (failRun1 process
      (Message.mk mi mt (wrapData dj) mts 0) qn) q' =
      if q' = qn ++ "_retry" then [Body.json j1] else [] := by
    have hstep := step_single_retry process _ qn j0
      (Message.mk mi mt (wrapData dj) mts 0) j1 h0 hj0u (hp _) (by norm_num) hj1m
    exact hstep
  have h2 : ∀ q', bodiesOf (failRun2 process
      (Message.mk mi mt (wrapData dj) mts 0) qn) q' =
      if q' = qn ++ "_retry_retry" then [Body.json j2] else [] := by
    have hstep := step_single_retry process _ (qn ++ "_retry") j1
      (Message.mk mi mt (wrapData dj) mts 1) j2 h1 hj1u (hp _) (by norm_num) hj2m
    have hname : (qn ++ "_retry") ++ "_retry" = qn ++ "_retry_retry" := by
      rw [String.append_assoc]
      rfl
    simpa only [hname] using hstep
  have h3 : ∀ q', bodiesOf (failRun3 process
      (Message.mk mi mt (wrapData dj) mts 0) qn) q' =
      if q' = qn ++ "_retry_retry_dead" then [Body.json j3] else [] := by
    have hstep := step_single_dead process _ (qn ++ "_retry_retry") j2
      (Message.mk mi mt (wrapData dj) mts 2) j3 h2 hj2u (hp _) (by norm_num) hj3m
    have hname : (qn ++ "_retry_retry") ++ "_dead" = qn ++ "_retry_retry_dead" := by
      rw [String.append_assoc]
      rfl
    simpa only [hname] using hstep
  refine ⟨⟨Body.json j0, by rw [h0, if_pos rfl], hj0u⟩,
    ⟨Body.json j1, by rw [h1, if_pos rfl], hj1u⟩,
    ⟨Body.json j2, by rw [h2, if_pos rfl], hj2u⟩,
    ⟨Body.json j3, by rw [h3, if_pos rfl], hj3u⟩, ?_, ?_, ?_, ?_⟩
  · rw [h3, if_neg (Ne.symm (append_ne_self_of_pos qn "_retry_retry_dead" (by decide)))]
  · rw [h3, if_neg (append_ne_of_length_ne qn "_retry" "_retry_retry_dead" (by decide))]
  · rw [h3, if_neg (append_ne_of_length_ne qn "_retry_retry" "_retry_retry_dead" (by decide))]
  · rw [h3, if_neg (append_ne_of_length_ne qn "_dead" "_retry_retry_dead" (by decide))]

/-- Witness for C2's amended theorem: the concrete always-failing login
message lands exactly once in Q_retry_retry_dead with retryCount 3, and
Q_dead stays empty. -/
theorem always_failing_cascade_witness :
    (∃ b3, bodiesOf (failRun3 alwaysFail cexMessage "Q") ("Q" ++ "_retry_retry_dead") = [b3] ∧
      unmarshalBody b3 = some { cexMessage with retries := 3 }) ∧
    bodiesOf (failRun3 alwaysFail cexMessage "Q") ("Q" ++ "_dead") = [] := by
  have h := always_failing_cascade alwaysFail cexMessage
    [("event", JVal.obj [("event_type", JVal.str "login")])] "Q"
    (by rfl) (by decide) (by rfl) (fun _ => rfl)
  exact ⟨h.2.2.2.1, h.2.2.2.2.2.2.2⟩

/-! C3 -/

theorem failureCount_append (e1 e2 : List TraceEv) (id : String) :
    failureCount (e1 ++ e2) id = failureCount e1 id + failureCount e2 id := by
  simp [failureCount, List.filter_append]

theorem fail_publish_state_inv (id : String) (n : Nat) (declOk pubOk : Bool)
    (st : BrokerState) (aq suffix : String) (b : Body) (m : Message)
    (_hqb : st.content aq = [b]) (hbm : unmarshalBody b = some m)
    (hother : ∀ q', q' ≠ aq → st.content q' = [])
    (hid : m.id = id) (hret : m.retries = (n : Int)) (hsuf : 0 < suffix.length) :
    MsgInv id (n + 1)
      (setQ (PublishMessage declOk pubOk (declareQueue st aq)
        { m with retries := m.retries + 1 } (aq ++ suffix)).1 aq []) := by
  have hfail : ∀ h : declOk = false ∨ pubOk = false, MsgInv id (n + 1)
      (setQ (PublishMessage declOk pubOk (declareQueue st aq)
        { m with retries := m.retries + 1 } (aq ++ suffix)).1 aq []) := by
    intro hor
    left
    intro q'
    by_cases hqe : q' = aq
    · simp [setQ, hqe]
    · show (if q' = aq then ([] : List Body) else _) = []
      rw [if_neg hqe,
        publish_failed_content declOk pubOk _ _ _ (hor.imp (fun x => x) Or.inl),
        content_declareQueue]
      exact hother q' hqe
  cases hdo : declOk with
  | false => exact hdo ▸ hfail (Or.inl hdo)
  | true =>
      cases hpo : pubOk with
      | false => exact hdo ▸ hpo ▸ hfail (Or.inr hpo)
      | true =>
          subst hdo
          subst hpo
          obtain ⟨j', hm', hu'⟩ := remarshal_retries b m hbm (m.retries + 1)
          have hne : aq ++ suffix ≠ aq := append_ne_self_of_pos aq suffix hsuf
          right
          refine ⟨aq ++ suffix, { m with retries := m.retries + 1 },
            ⟨⟨Body.json j', ?_, hu'⟩, ?_⟩, hid, ?_⟩
          · show (if aq ++ suffix = aq then ([] : List Body) else _) = _
            rw [if_neg hne]
            show bodiesOf (PublishMessage true true (declareQueue st aq)
              { m with retries := m.retries + 1 } (aq ++ suffix)).1 (aq ++ suffix) = _
            rw [publish_ok_bodies _ _ _ j' hm', if_pos rfl, bodiesOf_declareQueue]
            show st.content (aq ++ suffix) ++ [Body.json j'] = _
            rw [hother _ hne]
            rfl
          · intro q' hq'
            by_cases hqe : q' = aq
            · simp [setQ, hqe]
            · show (if q' = aq then ([] : List Body) else _) = []
              rw [if_neg hqe]
              show bodiesOf (PublishMessage true true (declareQueue st aq)
                { m with retries := m.retries + 1 } (aq ++ suffix)).1 q' = []
              rw [publish_ok_bodies _ _ _ j' hm', if_neg hq', bodiesOf_declareQueue]
              exact hother q' hqe
          · show m.retries + 1 = ((n + 1 : Nat) : Int)
            rw [hret]
            push_cast
            ring

theorem stepT_preserves_inv (id : String) (n : Nat) (a : Act) (st : BrokerState)
    (h : MsgInv id n st) :
    MsgInv id (n + failureCount
        (consumerStepT a.process a.declOk a.pubOk st a.queue).2 id)
      (consumerStepT a.process a.declOk a.pubOk st a.queue).1 := by
  rcases h with hno | ⟨q, m, ⟨⟨b, hqb, hbm⟩, hother⟩, hid, hret⟩
  · rw [consumerStepT_empty _ _ _ _ _ (hno a.queue)]
    left
    intro q'
    rw [content_declareQueue]
    exact hno q'
  · by_cases hq : a.queue = q
    · subst hq
      have hbod : bodiesOf st a.queue = b :: [] := hqb
      cases hp : a.process m with
      | true =>
          rw [consumerStepT_success _ _ _ _ _ b [] m hbod hbm hp]
          left
          intro q'
          by_cases hqe : q' = a.queue
          · simp [setQ, hqe]
          · show (if q' = a.queue then ([] : List Body) else _) = []
            rw [if_neg hqe, content_declareQueue]
            exact hother q' hqe
      | false =>
          by_cases hr : m.retries + 1 < 3
          · rw [consumerStepT_fail_retry _ _ _ _ _ b [] m hbod hbm hp hr]
            have hfc : failureCount [TraceEv.failed m.id (m.retries + 1)] id = 1 := by
              simp [failureCount, hid]
            rw [hfc]
            exact fail_publish_state_inv id n a.declOk a.pubOk st a.queue "_retry"
              b m hqb hbm hother hid hret (by decide)
          · rw [consumerStepT_fail_dead _ _ _ _ _ b [] m hbod hbm hp hr]
            have hfc : failureCount [TraceEv.failed m.id (m.retries + 1)] id = 1 := by
              simp [failureCount, hid]
            rw [hfc]
            exact fail_publish_state_inv id n a.declOk a.pubOk st a.queue "_dead"
              b m hqb hbm hother hid hret (by decide)
    · have hempty : bodiesOf st a.queue = [] :=
        hother a.queue hq
      rw [consumerStepT_empty _ _ _ _ _ hempty]
      right
      refine ⟨q, m, ⟨⟨b, ?_, hbm⟩, ?_⟩, hid, by simpa using hret⟩
      · rw [content_declareQueue]
        exact hqb
      · intro q' hq'
        rw [content_declareQueue]
        exact hother q' hq'

theorem runConsumers_inv (id : String) (acts : List Act) :
    ∀ (n : Nat) (st : BrokerState), MsgInv id n st →
      MsgInv id (n + failureCount (runConsumers acts st).2 id)
        (runConsumers acts st).1 := by
  induction acts with
  | nil =>
      intro n st h
      simpa [runConsumers, failureCount] using h
  | cons a rest ih =>
      intro n st h
      have h1 := stepT_preserves_inv id n a st h
      have h2 := ih _ _ h1
      simp only [runConsumers]
      rw [failureCount_append, ← Nat.add_assoc]
      exact h2

theorem runConsumers_append (acts extra : List Act) (st : BrokerState) :
    runConsumers (acts ++ extra) st =
      ((runConsumers extra (runConsumers acts st).1).1,
        (runConsumers acts st).2 ++ (runConsumers extra (runConsumers acts st).1).2) := by
  induction acts generalizing st with
  | nil => simp [runConsumers]
  | cons a rest ih => simp [runConsumers, ih, List.append_assoc]

theorem publishEvent_initial_inv (now : Int) (event : Event) (qn : String) :
    MsgInv event.EventID 0 (PublishEvent true true now emptyBroker event qn).1 := by
  have hm : marshalMessage (eventMessage now event) =
      some (JVal.obj [("id", JVal.str event.EventID),
        ("type", JVal.str "security_event"),
        ("data", JVal.obj [("event", eventJson event)]),
        ("timestamp", JVal.num now), ("retries", JVal.num 0)]) := by
    simp [eventMessage, marshalMessage, marshalData, marshalGoVal]
  have hu : unmarshalMessage (JVal.obj [("id", JVal.str event.EventID),
      ("type", JVal.str "security_event"),
      ("data", JVal.obj [("event", eventJson event)]),
      ("timestamp", JVal.num now), ("retries", JVal.num 0)]) =
      some (Message.mk event.EventID "security_event"
        (wrapData [("event", eventJson event)]) now 0) :=
    unmarshal_marshal_wire (Message.mk event.EventID "security_event"
      (wrapData [("event", eventJson event)]) now 0) [("event", eventJson event)]
      rfl (by simp)
  right
  refine ⟨qn, Message.mk event.EventID "security_event"
    (wrapData [("event", eventJson event)]) now 0,
    ⟨⟨Body.json (JVal.obj [("id", JVal.str event.EventID),
      ("type", JVal.str "security_event"),
      ("data", JVal.obj [("event", eventJson event)]),
      ("timestamp", JVal.num now), ("retries", JVal.num 0)]), ?_, hu⟩, ?_⟩, rfl, rfl⟩
  · show bodiesOf (PublishMessage true true emptyBroker (eventMessage now event) qn).1 qn = _
    rw [publish_ok_bodies _ _ _ _ hm, if_pos rfl]
    rfl
  · intro q' hq'
    show bodiesOf (PublishMessage true true emptyBroker (eventMessage now event) qn).1 q' = []
    rw [publish_ok_bodies _ _ _ _ hm, if_neg hq']
    rfl

theorem observed_retries_eq (id : String) (acts : List Act) (st0 : BrokerState)
    (hinv0 : MsgInv id 0 st0) (q : String) (b : Body) (m : Message)
    (hmem : b ∈ (runConsumers acts st0).1.content q)
    (hum : unmarshalBody b = some m) :
    m.id = id ∧ m.retries = (failureCount (runConsumers acts st0).2 id : Int) := by
  have hinv := runConsumers_inv id acts 0 st0 hinv0
  rcases hinv with hno | ⟨qs, ms, ⟨⟨bs, hqs, hbs⟩, hoth⟩, hid, hret⟩
  · rw [hno q] at hmem
    cases hmem
  · by_cases hqq : q = qs
    · subst hqq
      rw [hqs] at hmem
      have hb : b = bs := by simpa using hmem
      subst hb
      rw [hbs] at hum
      injection hum with hum
      subst hum
      exact ⟨hid, by simpa using hret⟩
    · rw [hoth q hqq] at hmem
      cases hmem

/-- C3: across the lifetime of one logical message — created by
PublishEvent with retryCount 0, then any sequence of consumer-loop
iterations on any queues, with any handler outcomes and any broker-publish
oracle outcomes — every copy observed on the broker carries the original
event id and a retryCount equal to the exact number of handler failures
recorded for it so far; in particular retryCount is monotonically
non-decreasing along any extension of the run. -/
theorem retryCount_counts_failures (now : Int) (event : Event) (qn : String)
    (acts extra : List Act) :
    (∀ q b m,
      b ∈ (runConsumers acts
        (PublishEvent true true now emptyBroker event qn).1).1.content q →
      unmarshalBody b = some m →
      m.id = event.EventID ∧
      m.retries = (failureCount (runConsumers acts
        (PublishEvent true true now emptyBroker event qn).1).2 event.EventID : Int)) ∧
    (∀ q b m q' b' m',
      b ∈ (runConsumers acts
        (PublishEvent true true now emptyBroker event qn).1).1.content q →
      unmarshalBody b = some m →
      b' ∈ (runConsumers (acts ++ extra)
        (PublishEvent true true now emptyBroker event qn).1).1.content q' →
      unmarshalBody b' = some m' →
      m.retries ≤ m'.retries) := by
  have hinit := publishEvent_initial_inv now event qn
  constructor
  · intro q b m hmem hum
    exact observed_retries_eq event.EventID acts _ hinit q b m hmem hum
  · intro q b m q' b' m' hmem hum hmem' hum'
    have h1 := observed_retries_eq event.EventID acts _ hinit q b m hmem hum
    have h2 := observed_retries_eq event.EventID (acts ++ extra) _ hinit q' b' m'
      hmem' hum'
    rw [h1.2, h2.2, runConsumers_append, failureCount_append]
    push_cast
    omega

/-- Witness for C3: with no consumer iterations run, the copy of the
freshly published sample event carries its id and retryCount equal to the
(zero) failures recorded. -/
theorem retryCount_counts_failures_witness :
    (Message.mk "event-1" "security_event"
      (wrapData [("event", eventJson sampleEvent)]) 0 0).id = sampleEvent.EventID ∧
    (Message.mk "event-1" "security_event"
      (wrapData [("event", eventJson sampleEvent)]) 0 0).retries =
      (failureCount (runConsumers []
        (PublishEvent true true 0 emptyBroker sampleEvent "Q").1).2
        sampleEvent.EventID : Int) := by
  refine (retryCount_counts_failures 0 sampleEvent "Q" [] []).1 "Q"
    (Body.json (JVal.obj [("id", JVal.str "event-1"),
      ("type", JVal.str "security_event"),
      ("data", JVal.obj [("event", eventJson sampleEvent)]),
      ("timestamp", JVal.num 0), ("retries", JVal.num 0)])) _ ?_ (by rfl)
  show _ ∈ (PublishEvent true true 0 emptyBroker sampleEvent "Q").1.content "Q"
  have hc : (PublishEvent true true 0 emptyBroker sampleEvent "Q").1.content "Q" =
      [Body.json (JVal.obj [("id", JVal.str "event-1"),
        ("type", JVal.str "security_event"),
        ("data", JVal.obj [("event", eventJson sampleEvent)]),
        ("timestamp", JVal.num 0), ("retries", JVal.num 0)])] := rfl
  rw [hc]
  exact List.mem_singleton.mpr rfl

/-! C4 -/

theorem consumerStep_malformed_state (process : Message → Bool)
    (declOk pubOk : Bool) (st : BrokerState) (qn : String) (b : Body)
    (rest : List Body) (hq : bodiesOf st qn = b :: rest)
    (hb : unmarshalBody b = none) :
    consumerStep process declOk pubOk st qn = declareQueue st qn := by
  rw [consumerStep, consumerStepT_malformed process declOk pubOk st qn b rest hq hb]

/-- C4: a delivery whose body fails to deserialize is nack-requeued onto
the primary queue: after any number of consumer-loop iterations the body
is still at the head of the consumed queue, no retry count anywhere has
changed, and the retry and dead-letter queues received nothing — every
queue's contents are exactly as before, with no bound on the number of
requeue cycles (the emitted trace records a malformed requeue, not a
failure). -/
theorem malformed_requeued_unboundedly (process : Message → Bool)
    (declOk pubOk : Bool) (st : BrokerState) (qn : String) (b : Body)
    (rest : List Body) (hq : bodiesOf st qn = b :: rest)
    (hb : unmarshalBody b = none) :
    (consumerStepT process declOk pubOk st qn).2 = [TraceEv.malformed] ∧
    ∀ n : Nat,
      ((fun s => consumerStep process declOk pubOk s qn)^[n] st).content =
        st.content ∧
      bodiesOf ((fun s => consumerStep process declOk pubOk s qn)^[n] st) qn =
        b :: rest := by
  constructor
  · rw [consumerStepT_malformed process declOk pubOk st qn b rest hq hb]
  · intro n
    induction n with
    | zero => exact ⟨rfl, hq⟩
    | succ k ih =>
        rw [Function.iterate_succ_apply']
        have hstep := consumerStep_malformed_state process declOk pubOk
          ((fun s => consumerStep process declOk pubOk s qn)^[k] st) qn b rest
          ih.2 hb
        constructor
        · rw [hstep, content_declareQueue, ih.1]
        · rw [hstep]
          show (declareQueue _ qn).content qn = b :: rest
          rw [content_declareQueue]
          exact ih.2

/-- Witness for C4: a queue holding one garbage body is unchanged by five
consumer-loop iterations. -/
theorem malformed_requeued_unboundedly_witness :
    ((fun s => consumerStep processOk true true s "G")^[5] garbState).content =
      garbState.content :=
  ((malformed_requeued_unboundedly processOk true true garbState
    "G" Body.garbage [] (by rfl) (by rfl)).2 5).1

/-! C5 -/

/-- Counterexample to C5 as stated: ProcessEvent's dispatch is NOT a
function of the message's type discriminator — two messages with the very
same Message.type ("security_event") dispatch to different handlers,
because the switch reads the event_type string inside the payload's event
object instead. -/
theorem dispatch_ignores_message_type :
    msgLoginA.type = msgDataB.type ∧
    handlerChoice msgLoginA = HandlerChoice.login ∧
    handlerChoice msgDataB = HandlerChoice.dataAccess := by
  refine ⟨rfl, ?_, ?_⟩ <;> rfl

/-- C5 (amended): for every successfully deserialized message, handler
dispatch is by the event_type string inside the message's event-data
object (not by the Message.type field): two messages with the same
embedded event_type dispatch identically; an event_type matching no
specific case falls to the default branch, which succeeds, so the delivery
is acknowledged and removed with nothing republished; and a message whose
Data carries no event object fails processing with an error (entering the
retry path) rather than being dispatched. -/
theorem dispatch_by_embedded_event_type :
    (∀ m m' fs fs', eventDataOf m = some fs → eventDataOf m' = some fs' →
      eventTypeOf fs = eventTypeOf fs' → handlerChoice m = handlerChoice m') ∧
    (∀ m fs, eventDataOf m = some fs → eventTypeOf fs ∉ knownEventTypes →
      handlerChoice m = HandlerChoice.generic ∧ ProcessEvent m = Except.ok () ∧
      processOk m = true) ∧
    (∀ m, eventDataOf m = none →
      ProcessEvent m = Except.error "invalid event data in message") ∧
    (∀ process st qn b rest m, bodiesOf st qn = b :: rest →
      unmarshalBody b = some m → process m = true →
      bodiesOf (consumerStep process true true st qn) qn = rest ∧
      ∀ q', q' ≠ qn →
        bodiesOf (consumerStep process true true st qn) q' = bodiesOf st q') := by
  refine ⟨?_, ?_, ?_, ?_⟩
  · intro m m' fs fs' hm hm' hty
    simp only [handlerChoice, hm, hm', hty]
  · intro m fs hm hkn
    simp only [knownEventTypes, List.mem_cons, List.mem_singleton, not_or] at hkn
    obtain ⟨h1, h2, h3⟩ := hkn
    refine ⟨?_, ?_, ?_⟩
    · simp only [handlerChoice, hm]
      split
      · next heq => exact absurd heq h1
      · next heq => exact absurd heq h2
      · next heq => exact absurd heq h3.1
      · rfl
    · simp [ProcessEvent, hm]
    · simp [processOk, hm]
  · intro m hm
    simp [ProcessEvent, hm]
  · intro process st qn b rest m hq hb hp
    rw [consumerStep, consumerStepT_success process true true st qn b rest m hq hb hp]
    constructor
    · simp [bodiesOf_setQ]
    · intro q' hq'
      rw [bodiesOf_setQ, if_neg hq', bodiesOf_declareQueue]

/-- Witness for C5's amended theorem: a message whose event_type "weird"
matches no specific case is handled by the default branch and processed
successfully. -/
theorem dispatch_by_embedded_event_type_witness :
    handlerChoice (Message.mk "m3" "security_event"
      [("event", GoVal.json (JVal.obj [("event_type", JVal.str "weird")]))] 0 0) =
      HandlerChoice.generic ∧
    ProcessEvent (Message.mk "m3" "security_event"
      [("event", GoVal.json (JVal.obj [("event_type", JVal.str "weird")]))] 0 0) =
      Except.ok () ∧
    processOk (Message.mk "m3" "security_event"
      [("event", GoVal.json (JVal.obj [("event_type", JVal.str "weird")]))] 0 0) =
      true :=
  dispatch_by_embedded_event_type.2.1
    (Message.mk "m3" "security_event"
      [("event", GoVal.json (JVal.obj [("event_type", JVal.str "weird")]))] 0 0)
    [("event_type", JVal.str "weird")] (by rfl) (by decide)

/-! C6 -/

/-- C6: after the interrupt signal, the worker process can never exit —
much less exit 0 with all workers stopped.  From any number of consuming
workers n+1, every state reachable by the process transitions has
phase ≠ exited: `wg.Wait()` cannot return while a worker is running, a
worker returns only after `rq.ctx` is cancelled, and the only caller of
`rq.cancel()` is the deferred `Close()` scheduled after `wg.Wait()`.  The
invariant: the context is never cancelled, all n+1 workers keep running,
and main never passes `wg.Wait()`. -/
theorem worker_shutdown_never_exits (n : Nat) (s : WorkerPoolState)
    (h : Relation.ReflTransGen PoolStep (initialPool (n + 1)) s) :
    s.phase ≠ MainPhase.exited := by
  have key : s.cancelled = false ∧ s.running = n + 1 ∧
      (s.phase = MainPhase.waitingSignal ∨ s.phase = MainPhase.waitingWorkers) := by
    induction h with
    | refl => exact ⟨rfl, rfl, Or.inl rfl⟩
    | tail hsteps hstep ih =>
        obtain ⟨hc, hr, hp⟩ := ih
        cases hstep with
        | interrupt c r => exact ⟨hc, hr, Or.inr rfl⟩
        | workerStops p r => exact absurd hc (by simp)
        | waitGroupDone c =>
            exfalso
            have h0 : (0 : Nat) = n + 1 := hr
            omega
        | closeRuns c r =>
            rcases hp with hp | hp <;> exact absurd hp (by simp)
  rcases key.2.2 with hp | hp <;> rw [hp] <;> simp

/-- Witness for C6: the freshly started pool with three workers has not
exited. -/
theorem worker_shutdown_never_exits_witness :
    (initialPool 3).phase ≠ MainPhase.exited :=
  worker_shutdown_never_exits 2 (initialPool 3) Relation.ReflTransGen.refl

/-! C7 -/

/-- C7: when JSON serialization of the message fails, PublishMessage
returns an error to the caller (the specific marshal error when the
preceding declare succeeded) and publishes nothing: every queue's contents
are exactly as before, so no copy of the message is visible to any
consumer; the function performs no retry — its one declare/marshal attempt
is the entire effect. -/
theorem publish_serialization_failure (declOk pubOk : Bool) (st : BrokerState)
    (m : Message) (qn : String) (h : marshalMessage m = none) :
    ((PublishMessage declOk pubOk st m qn).2).isSome = true ∧
    (declOk = true →
      (PublishMessage declOk pubOk st m qn).2 = some "failed to marshal message") ∧
    ((PublishMessage declOk pubOk st m qn).1).content = st.content := by
  refine ⟨?_, ?_, publish_failed_content declOk pubOk st m qn (Or.inr (Or.inr h))⟩
  · cases declOk <;> simp [PublishMessage, h]
  · intro hd
    subst hd
    simp [PublishMessage, h]

/-- Witness for C7: publishing the message holding an unserializable value
(a channel in the Data map) reports the marshal error and leaves the
broker's queues untouched. -/
theorem publish_serialization_failure_witness :
    (PublishMessage true true emptyBroker msgChan "Q").2 =
      some "failed to marshal message" ∧
    ((PublishMessage true true emptyBroker msgChan "Q").1).content =
      emptyBroker.content := by
  have h := publish_serialization_failure true true emptyBroker msgChan "Q" (by rfl)
  exact ⟨h.2.1 rfl, h.2.2⟩

/-! C8 -/

/-- C8: publishing a message onto an empty queue and immediately consuming
from it returns the very same message — id, type and payload (and the
other fields) unchanged: serialization followed by deserialization
round-trips them. -/
theorem publish_consume_roundtrip (st : BrokerState) (qn : String) (m : Message)
    (dj : List (String × JVal)) (hd : m.data = wrapData dj)
    (hnd : (dj.map Prod.fst).Nodup) (hempty : bodiesOf st qn = []) :
    ∃ m', (ConsumeMessage true (PublishMessage true true st m qn).1 qn).2 =
        Except.ok m' ∧
      m'.id = m.id ∧ m'.type = m.type ∧ m'.data = m.data := by
  obtain ⟨j, hjm, hju⟩ := wire_roundtrip m dj hd hnd
  have hub : bodiesOf (PublishMessage true true st m qn).1 qn = [Body.json j] := by
    rw [publish_ok_bodies st m qn j hjm, if_pos rfl, hempty]
    rfl
  refine ⟨m, ?_, rfl, rfl, rfl⟩
  simp only [ConsumeMessage, Bool.true_eq_false, if_false, bodiesOf_declareQueue, hub]
  simp [unmarshalBody, hju]

/-- Witness for C8: the concrete login message round-trips through
publish-then-consume unchanged. -/
theorem publish_consume_roundtrip_witness :
    ∃ m', (ConsumeMessage true (PublishMessage true true emptyBroker cexMessage "Q").1
        "Q").2 = Except.ok m' ∧
      m'.id = cexMessage.id ∧ m'.type = cexMessage.type ∧ m'.data = cexMessage.data :=
  publish_consume_roundtrip emptyBroker "Q" cexMessage
    [("event", JVal.obj [("event_type", JVal.str "login")])]
    (by rfl) (by decide) (by rfl)

/-! C9 -/

theorem alistLookup_alistInsert_self {β : Type} (m : List (String × β))
    (k : String) (v : β) : alistLookup (alistInsert m k v) k = some v := by
  induction m with
  | nil => simp [alistInsert, alistLookup]
  | cons kv rest ih =>
      obtain ⟨k', v'⟩ := kv
      by_cases hk : k' = k
      · subst hk
        simp [alistInsert, alistLookup]
      · simp [alistInsert, alistLookup, hk, ih]

theorem alistLookup_alistInsert_ne {β : Type} (m : List (String × β))
    (k : String) (v : β) (q : String) (h : q ≠ k) :
    alistLookup (alistInsert m k v) q = alistLookup m q := by
  have hkq : ¬ k = q := fun hh => h hh.symm
  induction m with
  | nil => simp [alistInsert, alistLookup, hkq]
  | cons kv rest ih =>
      obtain ⟨k', v'⟩ := kv
      by_cases hk : k' = k
      · subst hk
        simp [alistInsert, alistLookup, hkq]
      · simp only [alistInsert, if_neg hk]
        by_cases hq : k' = q
        · simp [alistLookup, hq]
        · simp [alistLookup, hq, ih]

theorem mem_alistInsert {β : Type} (m : List (String × β)) (k : String) (v : β)
    (x : String × β) (h : x ∈ alistInsert m k v) : x ∈ m ∨ x.1 = k := by
  induction m with
  | nil =>
      simp only [alistInsert, List.mem_singleton] at h
      exact Or.inr (by rw [h])
  | cons kv rest ih =>
      obtain ⟨k', v'⟩ := kv
      by_cases hk : k' = k
      · subst hk
        simp only [alistInsert, if_pos rfl] at h
        cases h with
        | head => exact Or.inr rfl
        | tail b h1 => exact Or.inl (List.mem_cons_of_mem _ h1)
      · simp only [alistInsert, if_neg hk] at h
        cases h with
        | head => exact Or.inl (List.mem_cons_self _ _)
        | tail b h1 =>
            rcases ih h1 with h2 | h2
            · exact Or.inl (List.mem_cons_of_mem _ h2)
            · exact Or.inr h2

/-- The entry GetQueueStats stores for one queue, as a function of the
per-name declare oracle and the broker's (unchanging) queue contents. -/
def statEntryFor (declOk : String → Bool) (c : String → List Body)
    (q : String) : StatEntry :=
  if declOk q then StatEntry.stats ((c q).length : Int) "rabbitmq"
  else StatEntry.failure "failed to declare queue"

theorem getQueueStatsAux_spec (declOk : String → Bool) (names : List String) :
    ∀ (st : BrokerState) (acc : List (String × StatEntry)),
      ((getQueueStatsAux declOk names st acc).1.content = st.content) ∧
      (∀ q, alistLookup (getQueueStatsAux declOk names st acc).2 q =
        if q ∈ names then some (statEntryFor declOk st.content q)
        else alistLookup acc q) ∧
      (∀ x, x ∈ (getQueueStatsAux declOk names st acc).2 →
        x ∈ acc ∨ x.1 ∈ names) := by
  induction names with
  | nil =>
      intro st acc
      refine ⟨rfl, fun q => by simp [getQueueStatsAux], fun x hx => Or.inl hx⟩
  | cons q0 rest ih =>
      intro st acc
      by_cases hdo : declOk q0
      · have hgl : GetQueueLength declOk st q0 =
            (declareQueue st q0, Except.ok ((bodiesOf st q0).length : Int)) := by
          simp [GetQueueLength, hdo]
        have hrec := ih (declareQueue st q0)
          (alistInsert acc q0 (StatEntry.stats ((bodiesOf st q0).length : Int) "rabbitmq"))
        have hstep : getQueueStatsAux declOk (q0 :: rest) st acc =
            getQueueStatsAux declOk rest (declareQueue st q0)
              (alistInsert acc q0
                (StatEntry.stats ((bodiesOf st q0).length : Int) "rabbitmq")) := by
          simp [getQueueStatsAux, hgl]
        rw [hstep]
        refine ⟨by rw [hrec.1, content_declareQueue], fun q => ?_, fun x hx => ?_⟩
        · rw [hrec.2.1 q, content_declareQueue]
          by_cases hqr : q ∈ rest
          · simp [hqr]
          · by_cases hqq : q = q0
            · subst hqq
              simp [hqr, alistLookup_alistInsert_self, statEntryFor, hdo, bodiesOf]
            · simp [hqr, hqq, alistLookup_alistInsert_ne acc q0 _ q hqq]
        · rcases hrec.2.2 x hx with h | h
          · rcases mem_alistInsert _ _ _ x h with h' | h'
            · exact Or.inl h'
            · exact Or.inr (by simp [h'])
          · exact Or.inr (by simp [h])
      · have hgl : GetQueueLength declOk st q0 =
            (st, Except.error "failed to declare queue") := by
          simp [GetQueueLength, hdo]
        have hrec := ih st
          (alistInsert acc q0 (StatEntry.failure "failed to declare queue"))
        have hstep : getQueueStatsAux declOk (q0 :: rest) st acc =
            getQueueStatsAux declOk rest st
              (alistInsert acc q0 (StatEntry.failure "failed to declare queue")) := by
          simp [getQueueStatsAux, hgl]
        rw [hstep]
        refine ⟨hrec.1, fun q => ?_, fun x hx => ?_⟩
        · rw [hrec.2.1 q]
          by_cases hqr : q ∈ rest
          · simp [hqr]
          · by_cases hqq : q = q0
            · subst hqq
              simp [hqr, alistLookup_alistInsert_self, statEntryFor, hdo]
            · simp [hqr, hqq, alistLookup_alistInsert_ne acc q0 _ q hqq]
        · rcases hrec.2.2 x hx with h | h
          · rcases mem_alistInsert _ _ _ x h with h' | h'
            · exact Or.inl h'
            · exact Or.inr (by simp [h'])
          · exact Or.inr (by simp [h])

/-- Counterexample to C9 as stated: the stats query is not free of broker
mutation — querying a name with no queue declares (creates) that durable
queue: on an empty broker, stats for "q" leaves a broker with queue "q"
declared, a different broker state. -/
theorem stats_declares_missing_queue :
    (GetQueueStats (fun _ => true) emptyBroker ["q"]).1 ≠ emptyBroker ∧
    (GetQueueStats (fun _ => true) emptyBroker ["q"]).1.declared = ["q"] := by
  constructor
  · intro h
    have h2 : (["q"] : List String) = ([] : List String) :=
      congrArg BrokerState.declared h
    cases h2
  · rfl

/-- C9 (amended): for every list of queue names, GetQueueStats returns a
mapping with exactly one entry per requested name (every requested name is
a key, and every key is a requested name); it never changes the contents
of any queue — every queue's pending messages are exactly as before —
though it idempotently declares each successfully queried queue, creating
missing ones empty; and a per-queue query failure is reported inline as
that queue's entry (an error record) without affecting any other queue's
entry, which still reports that queue's current length. -/
theorem stats_read_only_and_per_queue (declOk : String → Bool)
    (st : BrokerState) (queueNames : List String) :
    ((GetQueueStats declOk st queueNames).1.content = st.content) ∧
    (∀ q, q ∈ queueNames →
      alistLookup (GetQueueStats declOk st queueNames).2 q =
        some (if declOk q then
            StatEntry.stats ((st.content q).length : Int) "rabbitmq"
          else StatEntry.failure "failed to declare queue")) ∧
    (∀ x, x ∈ (GetQueueStats declOk st queueNames).2 → x.1 ∈ queueNames) := by
  have hunf : GetQueueStats declOk st queueNames =
      getQueueStatsAux declOk queueNames st [] := rfl
  have h := getQueueStatsAux_spec declOk queueNames st []
  rw [hunf]
  refine ⟨h.1, fun q hq => ?_, fun x hx => ?_⟩
  · rw [h.2.1 q, if_pos hq]
    rfl
  · rcases h.2.2 x hx with h' | h'
    · cases h'
    · exact h'

/-- Witness for C9's amended theorem: on a broker holding one published
message on Q, stats over Q and a missing queue R report length 1 and
length 0 inline, leaving every queue's contents untouched. -/
theorem stats_read_only_and_per_queue_witness :
    ((GetQueueStats (fun _ => true) cexState0 ["Q", "R"]).1.content =
      cexState0.content) ∧
    alistLookup (GetQueueStats (fun _ => true) cexState0 ["Q", "R"]).2 "Q" =
      some (StatEntry.stats 1 "rabbitmq") ∧
    alistLookup (GetQueueStats (fun _ => true) cexState0 ["Q", "R"]).2 "R" =
      some (StatEntry.stats 0 "rabbitmq") := by
  have h := stats_read_only_and_per_queue (fun _ => true) cexState0 ["Q", "R"]
  refine ⟨h.1, ?_, ?_⟩
  · rw [h.2.1 "Q" (by simp)]
    rfl
  · rw [h.2.1 "R" (by simp)]
    rfl

/-! C10 -/

/-- C10: in the handler-failure path the original delivery is acknowledged
even when republishing to the retry or dead-letter queue fails (the
publish error is only logged): the delivery disappears from the consumed
queue while every other queue — including the retry and dead-letter
queues — is unchanged, so no copy of the message remains anywhere; the
failure handling is not atomic and the message is lost. -/
theorem ack_despite_failed_republish (process : Message → Bool)
    (declOk pubOk : Bool) (st : BrokerState) (qn : String) (b : Body)
    (rest : List Body) (m : Message) (hq : bodiesOf st qn = b :: rest)
    (hb : unmarshalBody b = some m) (hp : process m = false)
    (hfail : declOk = false ∨ pubOk = false) :
    bodiesOf (consumerStep process declOk pubOk st qn) qn = rest ∧
    ∀ q', q' ≠ qn →
      bodiesOf (consumerStep process declOk pubOk st qn) q' = bodiesOf st q' := by
  have hor : declOk = false ∨ pubOk = false ∨
      marshalMessage { m with retries := m.retries + 1 } = none :=
    hfail.imp (fun x => x) Or.inl
  by_cases hr : m.retries + 1 < 3
  · rw [consumerStep, consumerStepT_fail_retry process declOk pubOk st qn b rest m hq hb hp hr]
    refine ⟨by simp [bodiesOf_setQ], fun q' hq' => ?_⟩
    rw [bodiesOf_setQ, if_neg hq']
    show (PublishMessage declOk pubOk (declareQueue st qn) _ (qn ++ "_retry")).1.content q' = _
    rw [publish_failed_content declOk pubOk _ _ _ hor, content_declareQueue]
    rfl
  · rw [consumerStep, consumerStepT_fail_dead process declOk pubOk st qn b rest m hq hb hp hr]
    refine ⟨by simp [bodiesOf_setQ], fun q' hq' => ?_⟩
    rw [bodiesOf_setQ, if_neg hq']
    show (PublishMessage declOk pubOk (declareQueue st qn) _ (qn ++ "_dead")).1.content q' = _
    rw [publish_failed_content declOk pubOk _ _ _ hor, content_declareQueue]
    rfl

/-- Witness for C10: with the republish to Q_retry failing, the failed
login message is acked off Q and exists nowhere — Q and Q_retry are both
empty afterwards. -/
theorem ack_despite_failed_republish_witness :
    bodiesOf (consumerStep alwaysFail true false cexState0 "Q") "Q" = [] ∧
    bodiesOf (consumerStep alwaysFail true false cexState0 "Q") "Q_retry" = [] := by
  have h := ack_despite_failed_republish alwaysFail true false cexState0 "Q"
    (Body.json (JVal.obj [("id", JVal.str "evt-1"), ("type", JVal.str "security_event"),
      ("data", JVal.obj [("event", JVal.obj [("event_type", JVal.str "login")])]),
      ("timestamp", JVal.num 0), ("retries", JVal.num 0)])) [] cexMessage
    (by rfl) (by rfl) (by rfl) (Or.inr rfl)
  refine ⟨h.1, ?_⟩
  rw [h.2 "Q_retry" (by decide)]
  rfl

end ShTask


